import Mathlib

/-!
Verification development for the stream watcher of `go-k8sresolver`
(`streamer.go`).

The watcher (`streamWatcher.watch` / `streamWatcher.proxyEvents`) keeps one
change stream per target alive: it repeatedly calls
`endpointClient.StartChangeStream(ctx, target, lastSeenResourceVersion)`,
and, once connected, a decode goroutine reads JSON `event` documents from the
stream one at a time, pushing `watchResult` values onto `eventsCh` and
reporting stream-level failures through the internal one-shot channel
`connectionErrCh`.

We shallow-embed the sequential behaviour of this code:

* `goAtoi` models `strconv.Atoi` (sign, decimal digits, 64-bit range);
* `handleEvent` models the `switch got.type` body of the decode goroutine
  (streamer.go lines 123-141) for one successfully decoded event;
* `handleDecodeErr` models the decode-error branch (lines 98-121),
  including the `ctx.Err() != nil` check that precedes the `switch err`;
* `decodeStep` combines the two into one loop iteration of the goroutine;
* `runEvents` / `rvTrace` run a list of successfully decoded events;
* `proxyEventsRun` models one call of `proxyEvents` on a stream whose
  decoded content and termination are given, recording whether
  `stream.Close()` ran (the `defer` at line 87);
* `watchRun` models the retry loop of `watch` (lines 60-82) on a run where
  the context stays live, recording the resourceVersion argument of every
  `StartChangeStream` call, every value sent on `eventsCh`, and the number
  of backoff sleeps.

The concrete data types (`metadata`, `endpoints`, `event`, `watchResult`,
`targetEntry`) follow the shapes used by `streamer.go` and
`streamer_test.go`; `goError` models `error` values built with
`errors.Wrap` / `errors.Errorf` and the `strconv` failures.
-/

namespace k8sresolver

/-- Go `error` values as they are built in `streamer.go`: base errors such as
`io.EOF` (message "EOF") and `io.ErrUnexpectedEOF` (message "unexpected EOF"),
`errors.Wrap err msg`, `errors.Errorf msg`, and the two `strconv.Atoi`
failure kinds (syntax and out-of-range). -/
inductive goError where
  | base (msg : String)
  | wrap (inner : goError) (msg : String)
  | errorf (msg : String)
  | atoiSyntax (input : String)
  | atoiRange (input : String)
deriving DecidableEq, Repr

/-- Digit string to number, base 10. -/
def digitsVal (ds : List Char) : Nat :=
  ds.foldl (fun a c => 10 * a + (c.toNat - 48)) 0

/-- Model of Go `strconv.Atoi` (equivalently `strconv.ParseInt(s, 10, 0)` on
a 64-bit platform): an optional single `+` or `-` sign followed by at least
one ASCII decimal digit; anything else is a syntax error; values outside the
`int64` range are a range error. The Go call also returns a clamped value
together with the range error, but `proxyEvents` discards the value whenever
the error is non-nil, so modelling the error alone is faithful. -/
def goAtoi (s : String) : Except goError Int :=
  let cs := s.toList
  let signed : Int × List Char :=
    match cs with
    | '+' :: rest => (1, rest)
    | '-' :: rest => (-1, rest)
    | _ => (1, cs)
  if signed.2.isEmpty then Except.error (goError.atoiSyntax s)
  else if signed.2.all (fun c => '0' ≤ c && c ≤ '9') then
    let v : Int := signed.1 * (digitsVal signed.2 : Int)
    if -(2 ^ 63) ≤ v ∧ v < 2 ^ 63 then Except.ok v
    else Except.error (goError.atoiRange s)
  else Except.error (goError.atoiSyntax s)

/-- Go type `eventType` is a string type. -/
abbrev eventType := String

/-- Constant `added` of `streamer.go`. -/
def added : eventType := "ADDED"

/-- Constant `modified` of `streamer.go`. -/
def modified : eventType := "MODIFIED"

/-- Constant `deleted` of `streamer.go`. -/
def deleted : eventType := "DELETED"

/-- Constant `failed` of `streamer.go`. -/
def failed : eventType := "ERROR"

/-- Struct `metadata` (declared outside `src/`; shape fixed by
`streamer_test.go` usage `metadata{ResourceVersion: "123"}` and the wire
format of the spec). -/
structure metadata where
  ResourceVersion : String
deriving DecidableEq, Repr

/-- Struct `address` (shape fixed by `streamer_test.go`: `address{IP: "1.2.3.4"}`). -/
structure address where
  IP : String
deriving DecidableEq, Repr

/-- Struct `port` (shape fixed by `streamer_test.go`:
`port{Port: 8080, Name: "noName"}`). -/
structure port where
  Port : Int
  Name : String
deriving DecidableEq, Repr

/-- Struct `subset` (shape fixed by `streamer_test.go`). -/
structure subset where
  Ports : List port
  Addresses : List address
deriving DecidableEq, Repr

/-- Struct `endpoints` (shape fixed by `streamer_test.go` and the wire
format of the spec: metadata plus subsets). -/
structure endpoints where
  Metadata : metadata
  Subsets : List subset
deriving DecidableEq, Repr

/-- Struct `event` of `streamer.go`: one decoded watch-stream document. The
Go fields are `Type` and `Object`; since `Type` is a Lean keyword we use the
JSON tag names `type` and `object` from the struct's tags. -/
structure event where
  type : eventType
  object : endpoints
deriving DecidableEq, Repr

/-- Struct `watchResult` (declared outside `src/`; shape fixed by its uses in
`streamer.go` — `watchResult{ep: &got, err: err}`, `watchResult{err: ...}`,
`watchResult{ep: &got}` — and by the field accesses `eventCh.ep` /
`eventCh.err` in `streamer_test.go`): a nilable event pointer and a nilable
error. -/
structure watchResult where
  ep : Option event
  err : Option goError
deriving DecidableEq, Repr

/-- The `case added, modified, deleted, failed` guard of the event switch in
`proxyEvents` (streamer.go lines 123-141). -/
def isValidType (t : eventType) : Bool :=
  t = added || t = modified || t = deleted || t = failed

/-- One successfully decoded event through the `switch got.type` body of the
decode goroutine (streamer.go lines 123-141): returns the new
`lastSeenResourceVersion` and the `watchResult` sent on `eventsCh`. Every
branch of the switch sends exactly one result and continues the loop. -/
def handleEvent (lastSeen : Int) (got : event) : Int × watchResult :=
  if isValidType got.type then
    match goAtoi got.object.Metadata.ResourceVersion with
    | Except.error e => (lastSeen, ⟨some got, some e⟩)
    | Except.ok rv => (rv, ⟨some got, none⟩)
  else
    (lastSeen, ⟨none, some (goError.errorf ("Got invalid watch event type: " ++ got.type))⟩)

/-- The three ways `decoder.Decode` can fail, as distinguished by the
`switch err` in `proxyEvents` (streamer.go lines 103-115): `io.EOF`,
`io.ErrUnexpectedEOF`, or any other decode error. -/
inductive decodeErr where
  | eof
  | unexpectedEOF
  | other (e : goError)
deriving DecidableEq, Repr

/-- What the decode goroutine does right after a decode failure: either stop
silently (context already cancelled), send an error on `connectionErrCh`
only, or send on `connectionErrCh` and additionally push a `watchResult` on
`eventsCh`. In every case the goroutine returns. -/
inductive errOutcome where
  | stopSilent
  | connErr (e : goError)
  | connErrAndEmit (e : goError) (r : watchResult)
deriving DecidableEq, Repr

/-- Wrap message used for non-EOF decode failures in `proxyEvents`
(streamer.go lines 112-116); the code applies it twice to the value pushed
on `eventsCh`. -/
def decodeWrapMsg : String := "Unable to decode an event from the watch stream"

/-- The decode-error branch of the goroutine in `proxyEvents` (streamer.go
lines 98-121): first the `ctx.Err() != nil` check, then the `switch err`.
`io.EOF` and `io.ErrUnexpectedEOF` are reported on `connectionErrCh` only;
any other decode error is sent on `connectionErrCh` and also pushed on
`eventsCh`, wrapped twice with `decodeWrapMsg`. -/
def handleDecodeErr (ctxCancelled : Bool) (d : decodeErr) : errOutcome :=
  if ctxCancelled then errOutcome.stopSilent
  else
    match d with
    | decodeErr.eof =>
        errOutcome.connErr (goError.wrap (goError.base "EOF") "EOF during watch stream event decoding")
    | decodeErr.unexpectedEOF =>
        errOutcome.connErr
          (goError.wrap (goError.base "unexpected EOF") "Unexpected EOF during watch stream event decoding")
    | decodeErr.other e =>
        errOutcome.connErrAndEmit (goError.wrap e decodeWrapMsg)
          ⟨none, some (goError.wrap (goError.wrap e decodeWrapMsg) decodeWrapMsg)⟩

/-- One blocking `decoder.Decode` outcome: a decoded event or a failure. -/
inductive decodeItem where
  | ok (e : event)
  | fail (d : decodeErr)
deriving DecidableEq, Repr

/-- Result of one iteration of the decode goroutine loop: continue with a new
`lastSeenResourceVersion` and one emitted `watchResult`, or return with the
given outcome. -/
inductive stepResult where
  | cont (newRV : Int) (emit : watchResult)
  | stop (out : errOutcome)
deriving DecidableEq, Repr

/-- One full iteration of the decode goroutine loop in `proxyEvents`
(streamer.go lines 92-145). Note the faithfulness point this exposes: the
cancellation flag is consulted only on the decode-failure path — a decode
that succeeds is processed and emitted regardless of `ctx`. -/
def decodeStep (ctxCancelled : Bool) (lastSeen : Int) : decodeItem → stepResult
  | decodeItem.ok e =>
      let p := handleEvent lastSeen e
      stepResult.cont p.1 p.2
  | decodeItem.fail d => stepResult.stop (handleDecodeErr ctxCancelled d)

/-- Run the decode goroutine over a list of successfully decoded events:
final `lastSeenResourceVersion` and the `watchResult`s pushed on `eventsCh`,
in order. -/
def runEvents : Int → List event → Int × List watchResult
  | rv, [] => (rv, [])
  | rv, e :: rest =>
      let p := handleEvent rv e
      let q := runEvents p.1 rest
      (q.1, p.2 :: q.2)

/-- The successive values of `lastSeenResourceVersion` after each decoded
event. -/
def rvTrace : Int → List event → List Int
  | _, [] => []
  | rv, e :: rest =>
      let rv1 := (handleEvent rv e).1
      rv1 :: rvTrace rv1 rest

/-- The resourceVersion an event contributes: its parsed
`object.metadata.resourceVersion`, provided its type is one of the four
valid ones (otherwise the switch never reaches the parse). -/
def parsedRVOf (e : event) : Option Int :=
  if isValidType e.type then (goAtoi e.object.Metadata.ResourceVersion).toOption else none

/-- Specification-level description of the resumption position: the parsed
resourceVersion of the most recent event that parsed successfully, or the
seed when no event has. -/
def lastParsedRV : Int → List event → Int
  | seed, [] => seed
  | seed, e :: rest => lastParsedRV ((parsedRVOf e).getD seed) rest

/-- Convenience endpoints value holding only a resourceVersion string. -/
def epWithRV (s : String) : endpoints := ⟨⟨s⟩, []⟩

/-- Convenience ADDED event with a given resourceVersion string. -/
def evAdded (s : String) : event := ⟨added, epWithRV s⟩

/-- Decoded content of one connected stream as the decode goroutine sees it:
the successfully decoded events in order, then the decode failure that ends
the stream. -/
structure streamContent where
  events : List event
  termination : decodeErr
deriving DecidableEq, Repr

/-- Outcome of one `StartChangeStream` call as chosen by the environment:
the call fails, or it yields a stream with the given decoded content. -/
inductive connAttempt where
  | failure
  | success (c : streamContent)
deriving DecidableEq, Repr

/-- Observable trace of a run of `watch` (streamer.go lines 60-82):
the resourceVersion argument of every `StartChangeStream` call in order,
every `watchResult` pushed on `eventsCh` in order, the number of
`time.Sleep(w.retryBackoff.Duration())` calls, and the final
`lastSeenResourceVersion`. -/
structure watchTrace where
  calls : List Int
  emits : List watchResult
  sleeps : Nat
  finalRV : Int
deriving DecidableEq, Repr

/-- The `watchResult`s (zero or one) that a stream-ending decode failure
pushes on `eventsCh` while the context is live. -/
def termEmits (d : decodeErr) : List watchResult :=
  match handleDecodeErr false d with
  | errOutcome.stopSilent => []
  | errOutcome.connErr _ => []
  | errOutcome.connErrAndEmit _ r => [r]

/-- Run of the retry loop of `watch` (streamer.go lines 60-82) over a list of
connection attempts, on a run where the context stays live throughout.
A failed `StartChangeStream` prints, sleeps one backoff interval and retries
with the same resourceVersion, emitting nothing; a successful one runs the
decode goroutine to the stream's end: its events update
`lastSeenResourceVersion` and are emitted, the terminating decode failure
contributes `termEmits`, `proxyEvents` returns the `connectionErrCh` error,
and the loop immediately (with no sleep) starts the next attempt. -/
def watchRun : Int → List connAttempt → watchTrace
  | rv, [] => ⟨[], [], 0, rv⟩
  | rv, connAttempt.failure :: rest =>
      let t := watchRun rv rest
      ⟨rv :: t.calls, t.emits, t.sleeps + 1, t.finalRV⟩
  | rv, connAttempt.success c :: rest =>
      let p := runEvents rv c.events
      let t := watchRun p.1 rest
      ⟨rv :: t.calls, p.2 ++ termEmits c.termination ++ t.emits, t.sleeps, t.finalRV⟩

/-- How one `proxyEvents` call ends: the select at streamer.go lines 147-153
fires on `ctx.Done()` (context cancelled while the goroutine is still
decoding), or the decode goroutine hits a decode failure (with the context
cancelled or live at that moment). -/
inductive proxyTermination where
  | ctxDone
  | decodeFailure (ctxCancelled : Bool) (d : decodeErr)
deriving DecidableEq, Repr

/-- Observable outcome of one `proxyEvents` call: the `watchResult`s pushed
on `eventsCh`, whether `stream.Close()` ran, and the returned error. -/
structure proxyOutcome where
  emits : List watchResult
  streamClosed : Bool
  ret : goError
deriving DecidableEq, Repr

/-- One call of `proxyEvents` (streamer.go lines 86-153) on a stream whose
decoded events and termination are given. `defer stream.Close()` (line 87)
runs on every return path, so every branch records the stream as closed.
When the goroutine stops silently because the context was cancelled, the
select can only fire on `ctx.Done()` and `proxyEvents` returns `ctx.Err()`
(modelled as the `context canceled` error); otherwise it returns the error
received on `connectionErrCh`. -/
def proxyEventsRun (rv : Int) (evs : List event) (t : proxyTermination) : proxyOutcome :=
  let p := runEvents rv evs
  match t with
  | proxyTermination.ctxDone =>
      ⟨p.2, true, goError.base "context canceled"⟩
  | proxyTermination.decodeFailure c d =>
      match handleDecodeErr c d with
      | errOutcome.stopSilent => ⟨p.2, true, goError.base "context canceled"⟩
      | errOutcome.connErr e => ⟨p.2, true, e⟩
      | errOutcome.connErrAndEmit e r => ⟨p.2 ++ [r], true, e⟩

/-- A `watchResult` as the decode goroutine actually shapes them: at least
one of the two fields is populated, and both are populated only in the
resourceVersion-parse-failure case, where the event has a valid type, its
resourceVersion fails `strconv.Atoi`, and the error is exactly that parse
error. -/
def wellFormedResult (r : watchResult) : Prop :=
  (r.ep.isSome = true ∨ r.err.isSome = true) ∧
  (r.ep.isSome = true ∧ r.err.isSome = true →
    ∃ e er, r.ep = some e ∧ r.err = some er ∧ isValidType e.type = true ∧
      goAtoi e.object.Metadata.ResourceVersion = Except.error er)

/-! ## Helper lemmas -/

/-- Case analysis of `handleEvent`: the three branches of the event switch. -/
lemma handleEvent_cases (rv : Int) (e : event) :
    (∃ er, isValidType e.type = true ∧
      goAtoi e.object.Metadata.ResourceVersion = Except.error er ∧
      handleEvent rv e = (rv, ⟨some e, some er⟩)) ∨
    (∃ v, isValidType e.type = true ∧
      goAtoi e.object.Metadata.ResourceVersion = Except.ok v ∧
      handleEvent rv e = (v, ⟨some e, none⟩)) ∨
    (isValidType e.type = false ∧
      handleEvent rv e =
        (rv, ⟨none, some (goError.errorf ("Got invalid watch event type: " ++ e.type))⟩)) := by
  cases hv : isValidType e.type with
  | false => exact Or.inr (Or.inr ⟨rfl, by simp [handleEvent, hv]⟩)
  | true =>
      cases ha : goAtoi e.object.Metadata.ResourceVersion with
      | error er => exact Or.inl ⟨er, rfl, rfl, by simp [handleEvent, hv, ha]⟩
      | ok v => exact Or.inr (Or.inl ⟨v, rfl, rfl, by simp [handleEvent, hv, ha]⟩)

/-- The `lastSeenResourceVersion` update of one event is exactly the parsed
value when the event has a valid type and a parsable resourceVersion, and a
no-op otherwise. -/
lemma handleEvent_fst (rv : Int) (e : event) :
    (handleEvent rv e).1 = (parsedRVOf e).getD rv := by
  rcases handleEvent_cases rv e with ⟨er, hv, ha, heq⟩ | ⟨v, hv, ha, heq⟩ | ⟨hv, heq⟩
  · rw [heq]; simp [parsedRVOf, hv, ha, Except.toOption]
  · rw [heq]; simp [parsedRVOf, hv, ha, Except.toOption]
  · rw [heq]; simp [parsedRVOf, hv]

/-- The imperative threading of `lastSeenResourceVersion` through a list of
decoded events computes the specification-level resumption position. -/
lemma runEvents_fst (rv : Int) (evs : List event) :
    (runEvents rv evs).1 = lastParsedRV rv evs := by
  induction evs generalizing rv with
  | nil => rfl
  | cons e rest ih =>
      show (runEvents (handleEvent rv e).1 rest).1 = lastParsedRV ((parsedRVOf e).getD rv) rest
      rw [handleEvent_fst]
      exact ih _

/-- Every result the event switch emits is well formed. -/
lemma wellFormed_handleEvent (rv : Int) (e : event) :
    wellFormedResult (handleEvent rv e).2 := by
  rcases handleEvent_cases rv e with ⟨er, hv, ha, heq⟩ | ⟨v, hv, ha, heq⟩ | ⟨hv, heq⟩
  · rw [heq]
    exact ⟨Or.inl rfl, fun _ => ⟨e, er, rfl, rfl, hv, ha⟩⟩
  · rw [heq]
    refine ⟨Or.inl rfl, fun hc => ?_⟩
    simp at hc
  · rw [heq]
    refine ⟨Or.inr rfl, fun hc => ?_⟩
    simp at hc

/-- Every result in a run of the decode goroutine over decoded events is
well formed. -/
lemma wellFormed_runEvents (rv : Int) (evs : List event) (r : watchResult)
    (h : r ∈ (runEvents rv evs).2) : wellFormedResult r := by
  induction evs generalizing rv with
  | nil => cases h
  | cons e rest ih =>
      rcases List.mem_cons.mp h with heq | htail
      · rw [heq]; exact wellFormed_handleEvent rv e
      · exact ih _ htail

/-- Every result a stream-ending decode failure pushes on `eventsCh` is well
formed (it carries only an error). -/
lemma wellFormed_termEmits (d : decodeErr) (r : watchResult)
    (h : r ∈ termEmits d) : wellFormedResult r := by
  cases d with
  | eof => cases h
  | unexpectedEOF => cases h
  | other e =>
      rcases List.mem_singleton.mp h with heq
      rw [heq]
      refine ⟨Or.inr rfl, fun hc => ?_⟩
      simp at hc

/-- If the parsed resourceVersions of a run arrive in non-decreasing order
(starting from the seed), the successive `lastSeenResourceVersion` values are
non-decreasing. -/
lemma rvTrace_chain (rv : Int) (evs : List event)
    (h : List.Chain' (fun a b => a ≤ b) (rv :: evs.filterMap parsedRVOf)) :
    List.Chain' (fun a b => a ≤ b) (rv :: rvTrace rv evs) := by
  induction evs generalizing rv with
  | nil => exact List.chain'_singleton rv
  | cons e rest ih =>
      cases hp : parsedRVOf e with
      | none =>
          have h1 : (handleEvent rv e).1 = rv := by rw [handleEvent_fst, hp]; rfl
          have h' : List.Chain' (fun a b => a ≤ b) (rv :: rest.filterMap parsedRVOf) := by
            simpa [List.filterMap_cons, hp] using h
          simp only [rvTrace, h1]
          exact List.chain'_cons.mpr ⟨le_refl rv, ih rv h'⟩
      | some v =>
          have h1 : (handleEvent rv e).1 = v := by rw [handleEvent_fst, hp]; rfl
          have h2 : List.Chain' (fun a b => a ≤ b) (rv :: v :: rest.filterMap parsedRVOf) := by
            simpa [List.filterMap_cons, hp] using h
          rw [List.chain'_cons] at h2
          simp only [rvTrace, h1]
          exact List.chain'_cons.mpr ⟨h2.1, ih v h2.2⟩

/-! ## Claim theorems -/

/-- Claim C1, counterexample. The claim asserts that after a stream
termination error the next `StartChangeStream` call is "never zero once at
least one event has been successfully parsed". Concretely: seed the watcher
with resourceVersion 5; the stream delivers one ADDED event whose
resourceVersion "0" parses successfully to 0, then ends with `io.EOF`; the
next `StartChangeStream` call passes 0 — zero, although an event was
successfully parsed, because the code stores every parsed value unchecked.
-/
theorem C1_counterexample :
    goAtoi "0" = Except.ok 0 ∧
    parsedRVOf (evAdded "0") = some 0 ∧
    (watchRun 5 [connAttempt.success ⟨[evAdded "0"], decodeErr.eof⟩,
        connAttempt.failure]).calls = [5, 0] :=
  ⟨rfl, rfl, rfl⟩

/-- Claim C1, amended: after a stream termination error the next
`StartChangeStream` call passes exactly the stored
`lastSeenResourceVersion`, namely the parsed resourceVersion of the most
recent successfully parsed event (the seed when no event parsed); this value
is zero, or lower than an earlier one, exactly when the most recent parsed
resourceVersion is. -/
theorem C1_amended_next_call_uses_last_parsed (rv : Int) (c : streamContent)
    (rest : List connAttempt) :
    (watchRun rv (connAttempt.success c :: rest)).calls =
      rv :: (watchRun (lastParsedRV rv c.events) rest).calls := by
  show rv :: (watchRun (runEvents rv c.events).1 rest).calls = _
  rw [runEvents_fst]

/-- Claim C2, counterexample. The claim asserts every `watchResult` pushed on
the output queue has exactly one of its two fields populated, including for
events whose resourceVersion fails to parse. Concretely: an ADDED event with
resourceVersion "abc" is pushed as `watchResult{ep: &got, err: err}` — both
the event and the parse error populated (streamer.go lines 127-131). -/
theorem C2_counterexample :
    (watchRun 0 [connAttempt.success ⟨[evAdded "abc"], decodeErr.eof⟩]).emits =
      [⟨some (evAdded "abc"), some (goError.atoiSyntax "abc")⟩] ∧
    (watchResult.mk (some (evAdded "abc")) (some (goError.atoiSyntax "abc"))).ep.isSome = true ∧
    (watchResult.mk (some (evAdded "abc")) (some (goError.atoiSyntax "abc"))).err.isSome = true :=
  ⟨rfl, rfl, rfl⟩

/-- Claim C2, amended: every `watchResult` the stream watcher pushes on the
output queue has at least one of its two fields populated, and has exactly
one populated except in the resourceVersion-parse-failure case, where both
the event and its parse error are populated. -/
theorem C2_amended_emits_wellFormed (rv : Int) (attempts : List connAttempt)
    (r : watchResult) (h : r ∈ (watchRun rv attempts).emits) :
    wellFormedResult r := by
  induction attempts generalizing rv with
  | nil => cases h
  | cons a rest ih =>
      cases a with
      | failure => exact ih rv h
      | success c =>
          have h' : r ∈ (runEvents rv c.events).2 ++ termEmits c.termination ++
              (watchRun (runEvents rv c.events).1 rest).emits := h
          rcases List.mem_append.mp h' with h2 | h2
          · rcases List.mem_append.mp h2 with h3 | h3
            · exact wellFormed_runEvents rv c.events r h3
            · exact wellFormed_termEmits c.termination r h3
          · exact ih _ h2

/-- Claim C2, witness for the amended theorem: the successful result emitted
for an ADDED event with resourceVersion "123" is well formed. -/
theorem C2_witness : wellFormedResult ⟨some (evAdded "123"), none⟩ :=
  C2_amended_emits_wellFormed 0
    [connAttempt.success ⟨[evAdded "123"], decodeErr.eof⟩]
    ⟨some (evAdded "123"), none⟩ (List.Mem.head _)

/-- Claim C3, counterexample. The claim asserts every stream-level decode
failure — including `io.EOF` and `io.ErrUnexpectedEOF` — emits exactly one
error-carrying result on the output queue. Concretely: a stream that ends
with `io.EOF` emits nothing on `eventsCh`; the wrapped error goes only to
the internal `connectionErrCh` (streamer.go lines 104-107). -/
theorem C3_counterexample :
    (watchRun 0 [connAttempt.success ⟨[], decodeErr.eof⟩]).emits = [] ∧
    handleDecodeErr false decodeErr.eof =
      errOutcome.connErr
        (goError.wrap (goError.base "EOF") "EOF during watch stream event decoding") :=
  ⟨rfl, rfl⟩

/-- Claim C3, amended: every stream-level decode failure terminates the
decode phase so the outer loop reconnects, and is wrapped with a descriptive
message; but only a decode failure other than `io.EOF` and
`io.ErrUnexpectedEOF` emits an error-carrying result (exactly one, wrapped
twice with the descriptive message) on the output queue — for `io.EOF` and
`io.ErrUnexpectedEOF` the wrapped error is delivered only on the internal
failure channel and nothing is pushed on the output queue. -/
theorem C3_amended_stream_decode_failures :
    (∀ rv d, decodeStep false rv (decodeItem.fail d) =
      stepResult.stop (handleDecodeErr false d)) ∧
    handleDecodeErr false decodeErr.eof =
      errOutcome.connErr
        (goError.wrap (goError.base "EOF") "EOF during watch stream event decoding") ∧
    handleDecodeErr false decodeErr.unexpectedEOF =
      errOutcome.connErr
        (goError.wrap (goError.base "unexpected EOF")
          "Unexpected EOF during watch stream event decoding") ∧
    (∀ e, handleDecodeErr false (decodeErr.other e) =
      errOutcome.connErrAndEmit (goError.wrap e decodeWrapMsg)
        ⟨none, some (goError.wrap (goError.wrap e decodeWrapMsg) decodeWrapMsg)⟩) ∧
    termEmits decodeErr.eof = [] ∧
    termEmits decodeErr.unexpectedEOF = [] ∧
    (∀ e, termEmits (decodeErr.other e) =
      [⟨none, some (goError.wrap (goError.wrap e decodeWrapMsg) decodeWrapMsg)⟩]) :=
  ⟨fun _ _ => rfl, rfl, rfl, fun _ => rfl, rfl, rfl, fun _ => rfl⟩

/-- Claim C4, confirmed: for a decoded event whose type is ADDED, MODIFIED,
DELETED or ERROR, if `strconv.Atoi` on `object.metadata.resourceVersion`
fails the goroutine emits a result carrying that parse error, leaves
`lastSeenResourceVersion` unchanged and continues on the same connection
(`stepResult.cont`, no reconnect); if the parse succeeds it updates
`lastSeenResourceVersion` to the parsed value and emits a successful result
carrying the event. -/
theorem C4_valid_event_resourceVersion_parse (b : Bool) (rv : Int) (e : event)
    (h : isValidType e.type = true) :
    (∀ er, goAtoi e.object.Metadata.ResourceVersion = Except.error er →
      decodeStep b rv (decodeItem.ok e) = stepResult.cont rv ⟨some e, some er⟩) ∧
    (∀ v, goAtoi e.object.Metadata.ResourceVersion = Except.ok v →
      decodeStep b rv (decodeItem.ok e) = stepResult.cont v ⟨some e, none⟩) := by
  constructor
  · intro er ha
    simp [decodeStep, handleEvent, h, ha]
  · intro v ha
    simp [decodeStep, handleEvent, h, ha]

/-- Claim C4, witness: an ADDED event with resourceVersion "abc" (parse
fails) keeps `lastSeenResourceVersion` at 0 and carries the syntax error;
an ADDED event with resourceVersion "123" updates it to 123 and carries no
error. -/
theorem C4_witness :
    decodeStep false 0 (decodeItem.ok (evAdded "abc")) =
      stepResult.cont 0 ⟨some (evAdded "abc"), some (goError.atoiSyntax "abc")⟩ ∧
    decodeStep false 0 (decodeItem.ok (evAdded "123")) =
      stepResult.cont 123 ⟨some (evAdded "123"), none⟩ :=
  ⟨(C4_valid_event_resourceVersion_parse false 0 (evAdded "abc") rfl).1 _ rfl,
   (C4_valid_event_resourceVersion_parse false 0 (evAdded "123") rfl).2 _ rfl⟩

/-- Claim C5, counterexample. The claim asserts `lastSeenResourceVersion` is
monotonically non-decreasing across successfully parsed events for every
sequence of decoded events. Concretely: the sequence ADDED "5", ADDED "3"
(both parse successfully) drives `lastSeenResourceVersion` from 5 down to 3
— the code assigns every parsed value unchecked (streamer.go line 133). -/
theorem C5_counterexample :
    parsedRVOf (evAdded "5") = some 5 ∧
    parsedRVOf (evAdded "3") = some 3 ∧
    rvTrace 0 [evAdded "5", evAdded "3"] = [5, 3] ∧
    ¬ List.Chain' (fun a b => a ≤ b) (rvTrace 0 [evAdded "5", evAdded "3"]) := by
  refine ⟨rfl, rfl, rfl, fun hc => ?_⟩
  rw [show rvTrace 0 [evAdded "5", evAdded "3"] = [5, 3] from rfl,
    List.chain'_cons] at hc
  exact absurd hc.1 (by decide)

/-- Claim C5, amended: an event whose resourceVersion fails to parse (or
whose type is invalid) never changes `lastSeenResourceVersion`, and each
successfully parsed event sets it to exactly its parsed value — so the
successive `lastSeenResourceVersion` values are monotonically non-decreasing
whenever the parsed resourceVersions arrive in non-decreasing order from the
seed, but not for arbitrary sequences. -/
theorem C5_amended_rv_updates (rv : Int) (evs : List event) (e : event) (r : Int)
    (hmono : List.Chain' (fun a b => a ≤ b) (rv :: evs.filterMap parsedRVOf))
    (hnone : parsedRVOf e = none) :
    (handleEvent r e).1 = r ∧
    List.Chain' (fun a b => a ≤ b) (rv :: rvTrace rv evs) := by
  constructor
  · rw [handleEvent_fst, hnone]
    rfl
  · exact rvTrace_chain rv evs hmono

/-- Claim C5, witness for the amended theorem: with seed 0 and the single
event ADDED "5" the trace stays non-decreasing, and the failing event
ADDED "abc" leaves a `lastSeenResourceVersion` of 7 unchanged. -/
theorem C5_witness :
    (handleEvent 7 (evAdded "abc")).1 = 7 ∧
    List.Chain' (fun a b => a ≤ b) ((0 : Int) :: rvTrace 0 [evAdded "5"]) :=
  C5_amended_rv_updates 0 [evAdded "5"] (evAdded "abc") 7
    (by
      show List.Chain' (fun a b => a ≤ b) [(0 : Int), 5]
      exact List.chain'_cons.mpr ⟨by decide, List.chain'_singleton 5⟩)
    rfl

/-- Claim C6, confirmed: a decoded event whose type string is not one of
ADDED, MODIFIED, DELETED, ERROR makes the goroutine emit a result carrying
the invalid-event-type error with no event attached, leave
`lastSeenResourceVersion` unchanged, and continue on the same connection
(`stepResult.cont`). -/
theorem C6_invalid_event_type (b : Bool) (rv : Int) (e : event)
    (h : isValidType e.type = false) :
    decodeStep b rv (decodeItem.ok e) = stepResult.cont rv
      ⟨none, some (goError.errorf ("Got invalid watch event type: " ++ e.type))⟩ := by
  simp [decodeStep, handleEvent, h]

/-- Claim C6, witness: the event of type "not-supported" from
`TestStreamWatcher` yields the invalid-event-type error with no event, and
`lastSeenResourceVersion` stays 7. -/
theorem C6_witness :
    decodeStep false 7 (decodeItem.ok ⟨"not-supported", epWithRV "9"⟩) =
      stepResult.cont 7
        ⟨none, some (goError.errorf "Got invalid watch event type: not-supported")⟩ :=
  C6_invalid_event_type false 7 ⟨"not-supported", epWithRV "9"⟩ rfl

/-- Claim C7, confirmed: when `StartChangeStream` fails, the watch loop
emits nothing on the output queue for that failure, sleeps exactly one
backoff interval, and retries with the same `lastSeenResourceVersion`; the
connection error appears in no emitted result. -/
theorem C7_connect_failure_backoff_retry (rv : Int) (rest : List connAttempt) :
    watchRun rv (connAttempt.failure :: rest) =
      ⟨rv :: (watchRun rv rest).calls, (watchRun rv rest).emits,
        (watchRun rv rest).sleeps + 1, (watchRun rv rest).finalRV⟩ :=
  rfl

/-- Claim C8, counterexample. The claim asserts the watcher waits a backoff
interval before reconnecting after a stream termination error. Concretely:
a stream that delivers ADDED "123" and then breaks with `io.EOF` is followed
by an immediate reconnect — the whole run performs zero backoff sleeps
(`time.Sleep` is only reached when `StartChangeStream` itself fails,
streamer.go lines 62-71). -/
theorem C8_counterexample :
    (watchRun 0 [connAttempt.success ⟨[evAdded "123"], decodeErr.eof⟩,
        connAttempt.success ⟨[], decodeErr.eof⟩]).sleeps = 0 ∧
    (watchRun 0 [connAttempt.success ⟨[evAdded "123"], decodeErr.eof⟩,
        connAttempt.success ⟨[], decodeErr.eof⟩]).calls = [0, 123] :=
  ⟨rfl, rfl⟩

/-- Claim C8, amended: when a connected stream is forcibly closed mid-read
(with the context live), the watcher reconnects immediately — a broken
stream adds no backoff sleep; backoff applies only to failed
`StartChangeStream` attempts — and the Client observes exactly one
additional `StartChangeStream` call, carrying the last successfully seen
resourceVersion. -/
theorem C8_amended_immediate_reconnect_with_last_rv (rv : Int)
    (c : streamContent) (rest : List connAttempt) :
    (watchRun rv (connAttempt.success c :: rest)).sleeps =
      (watchRun (lastParsedRV rv c.events) rest).sleeps ∧
    (watchRun rv (connAttempt.success c :: rest)).calls =
      rv :: (watchRun (lastParsedRV rv c.events) rest).calls := by
  constructor
  · show (watchRun (runEvents rv c.events).1 rest).sleeps = _
    rw [runEvents_fst]
  · show rv :: (watchRun (runEvents rv c.events).1 rest).calls = _
    rw [runEvents_fst]

/-- Claim C9, counterexample. The claim asserts that once the context is
cancelled no further result is produced for any subsequent decoded bytes.
Concretely: with the cancellation flag set, a successfully decoded ADDED
"123" event (e.g. from the decoder's buffer) is still processed and emitted
— the goroutine consults `ctx.Err()` only on the decode-failure path
(streamer.go lines 99-102), never before emitting a decoded event. -/
theorem C9_counterexample :
    decodeStep true 0 (decodeItem.ok (evAdded "123")) =
      stepResult.cont 123 ⟨some (evAdded "123"), none⟩ :=
  rfl

/-- Claim C9, amended: once the context is cancelled, the decode task stops
silently on its next decode failure — emitting nothing on either channel —
`proxyEvents` returns the cancellation error and closes the stream, and no
stream-termination result is added to the output queue; however, an event
that still decodes successfully after cancellation is emitted anyway, since
cancellation is checked only on the decode-failure path. -/
theorem C9_amended_cancelled_error_path_silent (rv : Int) (evs : List event)
    (d : decodeErr) :
    decodeStep true rv (decodeItem.fail d) = stepResult.stop errOutcome.stopSilent ∧
    (proxyEventsRun rv evs (proxyTermination.decodeFailure true d)).emits =
      (runEvents rv evs).2 ∧
    (proxyEventsRun rv evs (proxyTermination.decodeFailure true d)).streamClosed = true ∧
    (proxyEventsRun rv evs (proxyTermination.decodeFailure true d)).ret =
      goError.base "context canceled" :=
  ⟨rfl, rfl, rfl, rfl⟩

/-- Claim C10, confirmed: `proxyEvents` closes the stream handle on every
exit path — context cancellation, silent stop after cancellation, EOF,
unexpected EOF, and any other decode error — mirroring the
`defer stream.Close()` at streamer.go line 87. -/
theorem C10_stream_closed_on_every_exit (rv : Int) (evs : List event)
    (t : proxyTermination) :
    (proxyEventsRun rv evs t).streamClosed = true := by
  cases t with
  | ctxDone => rfl
  | decodeFailure c d =>
      cases c with
      | false => cases d <;> rfl
      | true => rfl

end k8sresolver
